import Mathlib

/-!
Shallow embedding of `src/main.rs` of bevy_vamp_clone, a minimal 2D arena
shooter written against the Bevy ECS.  Positions and distances are embedded
over `ℚ` wherever the source only compares distances: the source compares a
Euclidean distance against a radius sum, and for nonnegative reals
`dist < r` holds iff `dist ^ 2 < r ^ 2`, so every such test is embedded in
squared form, which keeps the definitions computable and decidable.  The
shoot direction (which normalizes a vector) and the spawn position (which
uses `cos`/`sin`) are embedded over `ℝ`.

Bevy semantics that matter here: despawns issued through `Commands` inside a
system are deferred — they are queued during the system's run and applied at
the sync point after the system finishes.  The collision pass therefore
mutates health and score against a query snapshot in which queued-for-despawn
entities are still visible; `applyDespawns` models the command application at
the end of the pass, which is the first point any later system can observe.
-/

namespace VampClone

/-- `PLAYER_RADIUS` from src/main.rs line 6. -/
def PLAYER_RADIUS : ℚ := 10

/-- `ENEMY_RADIUS` from src/main.rs line 7. -/
def ENEMY_RADIUS : ℚ := 10

/-- `BULLET_RADIUS` from src/main.rs line 8. -/
def BULLET_RADIUS : ℚ := 5

/-- A 2D vector (`Vec2` / truncated `Vec3` of the source). -/
structure Vec2 (α : Type) where
  x : α
  y : α
deriving DecidableEq

/-- Squared Euclidean distance between two rational points; the squared form
of `a.distance(b)` of the source. -/
def distSq (a b : Vec2 ℚ) : ℚ :=
  (a.x - b.x) ^ 2 + (a.y - b.y) ^ 2

/-- `GameState` (src/main.rs lines 10-15). -/
inductive GameState
  | Playing
  | GameOver
deriving DecidableEq

/-- `EnemyType` (src/main.rs lines 35-40). -/
inductive EnemyType
  | Basic
  | Fast
  | Tank
deriving DecidableEq

/-- `Enemy` component (src/main.rs lines 42-46); health is `i32`. -/
structure Enemy where
  kind : EnemyType
  health : ℤ
deriving DecidableEq

/-- `Bullet` component (src/main.rs lines 48-52). -/
structure Bullet (α : Type) where
  direction : Vec2 α
  speed : α
deriving DecidableEq

/-- The kill reward added to the score when an enemy's health reaches 0
(src/main.rs lines 207-211). -/
def killReward : EnemyType → ℕ
  | EnemyType.Basic => 1
  | EnemyType.Fast => 2
  | EnemyType.Tank => 5

/-- One row of the enemy query of `bullet_enemy_collision_system`:
entity id, transform translation, `Enemy` component. -/
structure EnemyRec where
  id : ℕ
  pos : Vec2 ℚ
  enemy : Enemy
deriving DecidableEq

/-- `enemy.health -= 1` applied to a query row (src/main.rs line 204). -/
def decHealth (e : EnemyRec) : EnemyRec :=
  ⟨e.id, e.pos, ⟨e.enemy.kind, e.enemy.health - 1⟩⟩

/-- The bullet is within collision range of the enemy:
`distance < BULLET_RADIUS + ENEMY_RADIUS` (src/main.rs line 201), in
squared form. -/
def inRange (bpos : Vec2 ℚ) (e : EnemyRec) : Prop :=
  distSq bpos e.pos < (BULLET_RADIUS + ENEMY_RADIUS) ^ 2

instance (bpos : Vec2 ℚ) (e : EnemyRec) : Decidable (inRange bpos e) :=
  inferInstanceAs (Decidable (distSq bpos e.pos < (BULLET_RADIUS + ENEMY_RADIUS) ^ 2))

/-- What the inner enemy loop of `bullet_enemy_collision_system` does for one
bullet (src/main.rs lines 195-218): the updated enemy rows, the score delta,
whether the bullet hit (and so was queued for despawn), the enemy ids queued
for despawn, and — as a ghost log — the enemy kinds whose reward was credited
to the score.  The loop `break`s at the first enemy in range. -/
structure HitResult where
  enemies : List EnemyRec
  scoreDelta : ℕ
  bulletHit : Bool
  kills : List ℕ
  credits : List EnemyType
deriving DecidableEq

/-- The inner enemy loop for one bullet (src/main.rs lines 195-218).
Enemies whose despawn is already queued are still scanned: `Commands`
despawns are deferred, so they are still present in the query. -/
def hitScan (bpos : Vec2 ℚ) : List EnemyRec → HitResult
  | [] => ⟨[], 0, false, [], []⟩
  | e :: rest =>
    if inRange bpos e then
      if e.enemy.health - 1 ≤ 0 then
        ⟨decHealth e :: rest, killReward e.enemy.kind, true, [e.id], [e.enemy.kind]⟩
      else
        ⟨decHealth e :: rest, 0, true, [], []⟩
    else
      let r := hitScan bpos rest
      ⟨e :: r.enemies, r.scoreDelta, r.bulletHit, r.kills, r.credits⟩

/-- The state `bullet_enemy_collision_system` reads and writes: the enemy
query rows, the `Score` resource (`u32`, modelled as `ℕ`), the queued bullet
and enemy despawn commands, and the ghost log of credited kinds. -/
structure CollisionWorld where
  enemies : List EnemyRec
  score : ℕ
  despawnedBullets : List ℕ
  despawnedEnemies : List ℕ
  credits : List EnemyType
deriving DecidableEq

/-- One iteration of the outer bullet loop of
`bullet_enemy_collision_system` (src/main.rs lines 194-218). -/
def processBullet (w : CollisionWorld) (b : ℕ × Vec2 ℚ) : CollisionWorld :=
  let r := hitScan b.2 w.enemies
  ⟨r.enemies,
   w.score + r.scoreDelta,
   if r.bulletHit then w.despawnedBullets ++ [b.1] else w.despawnedBullets,
   w.despawnedEnemies ++ r.kills,
   w.credits ++ r.credits⟩

/-- `bullet_enemy_collision_system` (src/main.rs lines 188-220): the outer
loop over the bullet query. -/
def bullet_enemy_collision_system (bullets : List (ℕ × Vec2 ℚ)) (w : CollisionWorld) :
    CollisionWorld :=
  bullets.foldl processBullet w

/-- Application of the queued `Commands` despawns at the sync point after
`bullet_enemy_collision_system` finishes: enemies whose despawn was queued
are removed from the world. -/
def applyDespawns (w : CollisionWorld) : CollisionWorld :=
  ⟨w.enemies.filter (fun e => !(decide (e.id ∈ w.despawnedEnemies))),
   w.score, w.despawnedBullets, w.despawnedEnemies, w.credits⟩

/-- The transform update of `bullet_movement_system` for one bullet
(src/main.rs lines 177-179): `translation += direction * speed * delta`. -/
def bulletStep (dt : ℚ) (pos : Vec2 ℚ) (b : Bullet ℚ) : Vec2 ℚ :=
  ⟨pos.x + b.direction.x * b.speed * dt, pos.y + b.direction.y * b.speed * dt⟩

/-- The lifetime check of `bullet_movement_system` (src/main.rs line 182):
`tf.translation.length() > 5000.0` after the move, in squared form.  The
length is the distance of the new position from the world origin. -/
def bulletExpired (dt : ℚ) (pos : Vec2 ℚ) (b : Bullet ℚ) : Bool :=
  decide (5000 ^ 2 < (bulletStep dt pos b).x ^ 2 + (bulletStep dt pos b).y ^ 2)

/-- `bullet_movement_system` (src/main.rs lines 171-186): every bullet row
(id, translation, `Bullet`) is moved, and the ids of bullets whose new
position is farther than 5000 from the origin are queued for despawn. -/
def bullet_movement_system (dt : ℚ) (bullets : List (ℕ × Vec2 ℚ × Bullet ℚ)) :
    List (ℕ × Vec2 ℚ × Bullet ℚ) × List ℕ :=
  (bullets.map (fun e => (e.1, bulletStep dt e.2.1 e.2.2, e.2.2)),
   (bullets.filter (fun e => bulletExpired dt e.2.1 e.2.2)).map (fun e => e.1))

/-- Length of a real 2D vector. -/
noncomputable def length2 (v : Vec2 ℝ) : ℝ :=
  Real.sqrt (v.x ^ 2 + v.y ^ 2)

/-- glam's `Vec2::normalize`: `v / v.length()` componentwise. -/
noncomputable def normalize2 (v : Vec2 ℝ) : Vec2 ℝ :=
  ⟨v.x / length2 v, v.y / length2 v⟩

/-- The `Bullet` component built by `shoot_bullet` (src/main.rs lines
148-162): direction `(world_pos - player_translation).normalize()`, speed
`600.0`.  The bullet's transform is the player's translation. -/
noncomputable def shoot_bullet (player cursor : Vec2 ℝ) : Bullet ℝ :=
  ⟨normalize2 ⟨cursor.x - player.x, cursor.y - player.y⟩, 600⟩

/-- `enemy_player_collision_system` (src/main.rs lines 230-250): if the
player query does not hold exactly one player it returns without touching
anything; otherwise every enemy within `PLAYER_RADIUS + ENEMY_RADIUS` of the
player makes it call `next_state.set(GameState::GameOver)`.  `next` models
the pending `NextState` value; `set` overwrites it. -/
def enemy_player_collision_system (players : List (Vec2 ℚ)) (enemies : List (Vec2 ℚ))
    (next : Option GameState) : Option GameState :=
  match players with
  | [p] =>
    enemies.foldl
      (fun acc epos =>
        if distSq p epos < (PLAYER_RADIUS + ENEMY_RADIUS) ^ 2 then some GameState.GameOver
        else acc)
      next
  | _ => next

/-- The `Update`-schedule systems registered in `main`
(src/main.rs lines 63-77). -/
inductive SystemId
  | move_player
  | shoot
  | bullet_movement
  | spawn
  | move_enemies
  | restart_on_r
  | bullet_enemy_collision
  | enemy_player_collision
  | update_score_ui
deriving DecidableEq

/-- The `run_if(in_state(..))` gating of each `Update` system as registered
in `main` (src/main.rs lines 63-77): systems registered with
`run_if(in_state(s))` run only in `s`; the others run in every state. -/
def runsIn : SystemId → GameState → Bool
  | SystemId.move_player, GameState.Playing => true
  | SystemId.move_player, GameState.GameOver => false
  | SystemId.shoot, GameState.Playing => true
  | SystemId.shoot, GameState.GameOver => false
  | SystemId.bullet_movement, _ => true
  | SystemId.spawn, GameState.Playing => true
  | SystemId.spawn, GameState.GameOver => false
  | SystemId.move_enemies, GameState.Playing => true
  | SystemId.move_enemies, GameState.GameOver => false
  | SystemId.restart_on_r, GameState.Playing => false
  | SystemId.restart_on_r, GameState.GameOver => true
  | SystemId.bullet_enemy_collision, _ => true
  | SystemId.enemy_player_collision, _ => true
  | SystemId.update_score_ui, _ => true

/-- The entity classes spawned by the source; `InGameEntity` tagging per
spawn site: player (line 379), enemies (line 303) and bullets (line 163)
carry the tag, the game-over text, score text and camera do not. -/
inductive EntityClass
  | player
  | enemy
  | bullet
  | gameOverText
  | scoreText
  | camera
deriving DecidableEq

/-- A world entity as the cleanup and restart systems see it: its class,
whether it carries the `InGameEntity` tag, and its translation. -/
structure WEntity where
  cls : EntityClass
  inGame : Bool
  pos : Vec2 ℚ
deriving DecidableEq

/-- `cleanup_ingame_entities` (src/main.rs lines 332-336): despawn every
entity carrying the `InGameEntity` tag. -/
def cleanup_ingame_entities (w : List WEntity) : List WEntity :=
  w.filter (fun e => !e.inGame)

/-- Round-scoped entity classes: player, enemy, bullet. -/
def isRoundScoped (e : WEntity) : Bool :=
  match e.cls with
  | EntityClass.player => true
  | EntityClass.enemy => true
  | EntityClass.bullet => true
  | _ => false

/-- The entity is a `Player`. -/
def isPlayerEnt (e : WEntity) : Bool :=
  decide (e.cls = EntityClass.player)

/-- `setup_new_game` (src/main.rs lines 363-389), the `OnEnter(Playing)`
effect: score reset to 0, every `GameOverText` entity despawned, one fresh
player spawned at `Vec3::ZERO` with the `InGameEntity` tag. -/
def setup_new_game (score : ℕ) (w : List WEntity) : ℕ × List WEntity :=
  (0,
   w.filter (fun e => !(decide (e.cls = EntityClass.gameOverText)))
     ++ [⟨EntityClass.player, true, ⟨0, 0⟩⟩])

/-- The enemy type chosen from `rng.gen_range(0..3)`
(src/main.rs lines 277-281). -/
def enemyTypeOfRoll (roll : ℕ) : EnemyType :=
  match roll with
  | 0 => EnemyType.Basic
  | 1 => EnemyType.Fast
  | _ => EnemyType.Tank

/-- Initial health per enemy type (src/main.rs lines 283-287). -/
def enemyHealth : EnemyType → ℤ
  | EnemyType.Basic => 1
  | EnemyType.Fast => 1
  | EnemyType.Tank => 3

/-- `timer.0.tick(time.delta())` for the repeating 1-second
`EnemySpawnTimer` (src/main.rs lines 57-60, 258): the elapsed time advances
by the frame delta; the tick just finished iff the accumulated time reached
the 1-second period, and then the elapsed time wraps modulo the period. -/
def tickTimer (elapsed dt : ℚ) : ℚ × Bool :=
  if 1 ≤ elapsed + dt then (elapsed + dt - ⌊elapsed + dt⌋, true)
  else (elapsed + dt, false)

/-- The random draws `spawn_enemies` takes from `thread_rng()`
(src/main.rs lines 266-277): `angle` from `gen_range(0.0..TAU)`, `dist`
from `gen_range(300.0..500.0)`, `typeRoll` from `gen_range(0..3)`. -/
structure SpawnRng where
  angle : ℝ
  dist : ℝ
  typeRoll : ℕ

/-- The enemy bundle spawned by `spawn_enemies` (src/main.rs lines
289-304): the `Enemy` component, the translation, and the `InGameEntity`
tag. -/
structure SpawnedEnemy where
  enemy : Enemy
  posX : ℝ
  posY : ℝ
  inGame : Bool

/-- `spawn_enemies` (src/main.rs lines 252-305): tick the timer first and
return if the period did not elapse; then return if the player query does
not hold exactly one player (the timer has already advanced); otherwise
spawn one enemy at `player + (cos angle, sin angle) * dist` with the kind
chosen by the roll and its kind-specific health. -/
noncomputable def spawn_enemies (elapsed dt : ℚ) (players : List (Vec2 ℝ))
    (rng : SpawnRng) : ℚ × Option SpawnedEnemy :=
  let t := tickTimer elapsed dt
  if t.2 = true then
    match players with
    | [p] =>
      (t.1, some ⟨⟨enemyTypeOfRoll rng.typeRoll, enemyHealth (enemyTypeOfRoll rng.typeRoll)⟩,
        p.x + Real.cos rng.angle * rng.dist,
        p.y + Real.sin rng.angle * rng.dist, true⟩)
    | _ => (t.1, none)
  else (t.1, none)

/-! ### Helper lemmas about the bullet-enemy collision pass -/

/-- The score delta of one bullet's scan is exactly the sum of the kill
rewards of the kinds it credited. -/
theorem hitScan_delta_eq_credits (bpos : Vec2 ℚ) (es : List EnemyRec) :
    (hitScan bpos es).scoreDelta = ((hitScan bpos es).credits.map killReward).sum := by
  induction es with
  | nil => simp [hitScan]
  | cons e rest ih =>
    by_cases h : inRange bpos e
    · by_cases h2 : e.enemy.health - 1 ≤ 0 <;> simp [hitScan, h, h2]
    · simpa [hitScan, h] using ih

/-- Across the whole pass, the score grows by exactly the rewards of the
kinds appended to the credit log. -/
theorem system_score_eq_credits (bullets : List (ℕ × Vec2 ℚ)) (w : CollisionWorld) :
    ∃ ks : List EnemyType,
      (bullet_enemy_collision_system bullets w).score = w.score + (ks.map killReward).sum ∧
      (bullet_enemy_collision_system bullets w).credits = w.credits ++ ks := by
  induction bullets generalizing w with
  | nil => exact ⟨[], by simp [bullet_enemy_collision_system]⟩
  | cons b bs ih =>
    have e1 : bullet_enemy_collision_system (b :: bs) w
        = bullet_enemy_collision_system bs (processBullet w b) := rfl
    obtain ⟨ks, h1, h2⟩ := ih (processBullet w b)
    refine ⟨(hitScan b.2 w.enemies).credits ++ ks, ?_, ?_⟩
    · rw [e1, h1]
      have e2 : (processBullet w b).score = w.score + (hitScan b.2 w.enemies).scoreDelta := rfl
      rw [e2, hitScan_delta_eq_credits]
      simp [Nat.add_assoc]
    · rw [e1, h2]
      have e3 : (processBullet w b).credits = w.credits ++ (hitScan b.2 w.enemies).credits := rfl
      rw [e3, List.append_assoc]

/-! ### Claims C1 and C3 -/

/-- Claim C1, amended: across one run of the bullet-enemy collision pass the
score only increases, and it increases by exactly the sum of the kill
rewards (Basic 1, Fast 2, Tank 5) logged by the pass, one reward per hit
that drove an enemy's health to 0 or below.  The original claim's "one
reward per enemy destroyed, never credited twice" is false: despawns are
deferred `Commands`, so an enemy already driven to health ≤ 0 by one bullet
is still visible to the scan of a later bullet in the same pass, and each
such hit credits the reward again. -/
theorem C1_score_kill_rewards (bullets : List (ℕ × Vec2 ℚ)) (w : CollisionWorld) :
    w.score ≤ (bullet_enemy_collision_system bullets w).score ∧
    ∃ ks : List EnemyType,
      (bullet_enemy_collision_system bullets w).score = w.score + (ks.map killReward).sum ∧
      (bullet_enemy_collision_system bullets w).credits = w.credits ++ ks := by
  obtain ⟨ks, h1, h2⟩ := system_score_eq_credits bullets w
  exact ⟨by rw [h1]; exact Nat.le_add_right _ _, ks, h1, h2⟩

/-- The C1 counterexample world: one Basic enemy with health 1 at the
origin, score 0, nothing queued. -/
def c1World : CollisionWorld :=
  ⟨[⟨0, ⟨0, 0⟩, ⟨EnemyType.Basic, 1⟩⟩], 0, [], [], []⟩

/-- The C1 counterexample bullet query: two bullets, both at the origin. -/
def c1Bullets : List (ℕ × Vec2 ℚ) :=
  [(100, ⟨0, 0⟩), (101, ⟨0, 0⟩)]

/-- Counterexample to claim C1 as stated: two bullets overlap one Basic
(health 1, reward 1) enemy in the same frame.  The pass credits the reward
twice — the score rises by 2 although exactly one enemy existed and was
destroyed (its id is queued for despawn twice, and after the commands apply
no enemy remains). -/
theorem C1_double_credit_cex :
    (bullet_enemy_collision_system c1Bullets c1World).score = 2 ∧
    (bullet_enemy_collision_system c1Bullets c1World).credits
      = [EnemyType.Basic, EnemyType.Basic] ∧
    c1World.enemies.length = 1 ∧
    (bullet_enemy_collision_system c1Bullets c1World).despawnedEnemies = [0, 0] ∧
    (applyDespawns (bullet_enemy_collision_system c1Bullets c1World)).enemies = [] := by
  norm_num [c1World, c1Bullets, bullet_enemy_collision_system, processBullet, hitScan,
    inRange, distSq, killReward, BULLET_RADIUS, ENEMY_RADIUS, decHealth, applyDespawns]

/-- Claim C3: the scan for one bullet either hits nothing (no enemy in
range, nothing changed, the bullet survives) or finds the first enemy
within `BULLET_RADIUS + ENEMY_RADIUS`, decrements exactly that enemy's
health by 1, despawns the bullet, queues at most that one enemy for
despawn, and leaves every enemy after it untouched and unscanned. -/
theorem C3_first_hit_only (bpos : Vec2 ℚ) (es : List EnemyRec) :
    ((hitScan bpos es).enemies = es ∧ (hitScan bpos es).bulletHit = false ∧
      (hitScan bpos es).kills = [] ∧ ∀ e ∈ es, ¬ inRange bpos e)
    ∨ ∃ pre e post, es = pre ++ e :: post ∧ (∀ x ∈ pre, ¬ inRange bpos x) ∧
        inRange bpos e ∧
        (hitScan bpos es).enemies = pre ++ decHealth e :: post ∧
        (hitScan bpos es).bulletHit = true ∧
        (hitScan bpos es).kills = (if e.enemy.health - 1 ≤ 0 then [e.id] else []) := by
  induction es with
  | nil => left; simp [hitScan]
  | cons e rest ih =>
    by_cases h : inRange bpos e
    · right
      refine ⟨[], e, rest, rfl, by simp, h, ?_, ?_, ?_⟩ <;>
        by_cases h2 : e.enemy.health - 1 ≤ 0 <;> simp [hitScan, h, h2]
    · rcases ih with ⟨h1, h2, h3, h4⟩ | ⟨pre, x, post, hdec, hpre, hx, he, hb, hk⟩
      · left
        refine ⟨by simp [hitScan, h, h1], by simp [hitScan, h, h2],
          by simp [hitScan, h, h3], ?_⟩
        intro a ha
        rcases List.mem_cons.mp ha with rfl | ha
        · exact h
        · exact h4 a ha
      · right
        refine ⟨e :: pre, x, post, by simp [hdec], ?_, hx, ?_, ?_, ?_⟩
        · intro a ha
          rcases List.mem_cons.mp ha with rfl | ha
          · exact h
          · exact hpre a ha
        · simp [hitScan, h, he]
        · simp [hitScan, h, hb]
        · simp [hitScan, h, hk]

/-! ### Claims C6 and C10 -/

/-- The enemy fold of `enemy_player_collision_system` ends at `GameOver`
exactly when some enemy is in range or a `GameOver` was already pending. -/
theorem epcFold_eq_gameover (p : Vec2 ℚ) (es : List (Vec2 ℚ)) (acc : Option GameState) :
    (es.foldl
        (fun acc2 epos =>
          if distSq p epos < (PLAYER_RADIUS + ENEMY_RADIUS) ^ 2 then some GameState.GameOver
          else acc2)
        acc = some GameState.GameOver)
      ↔ (∃ e ∈ es, distSq p e < (PLAYER_RADIUS + ENEMY_RADIUS) ^ 2)
        ∨ acc = some GameState.GameOver := by
  induction es generalizing acc with
  | nil => simp
  | cons e rest ih =>
    simp only [List.foldl_cons]
    rw [ih]
    by_cases h : distSq p e < (PLAYER_RADIUS + ENEMY_RADIUS) ^ 2
    · simp [h]
    · simp [h, or_assoc]

/-- Claim C6: the enemy-player collision system is registered with no state
gate, so it runs in every game state; and when a live player exists and no
transition is pending, a `GameOver` transition is requested if and only if
some enemy is within `PLAYER_RADIUS + ENEMY_RADIUS` of the player.  Several
in-range enemies all issue the same `next_state.set(GameOver)`, so the
outcome is the same pending transition. -/
theorem C6_gameover_iff :
    (∀ s : GameState, runsIn SystemId.enemy_player_collision s = true) ∧
    ∀ (p : Vec2 ℚ) (enemies : List (Vec2 ℚ)),
      (enemy_player_collision_system [p] enemies none = some GameState.GameOver ↔
        ∃ e ∈ enemies, distSq p e < (PLAYER_RADIUS + ENEMY_RADIUS) ^ 2) := by
  constructor
  · intro s; cases s <;> rfl
  · intro p enemies
    have e1 : enemy_player_collision_system [p] enemies none
        = enemies.foldl
            (fun acc2 epos =>
              if distSq p epos < (PLAYER_RADIUS + ENEMY_RADIUS) ^ 2 then some GameState.GameOver
              else acc2)
            none := rfl
    rw [e1, epcFold_eq_gameover]
    simp

/-- Claim C10: when the player query holds no player,
`enemy_player_collision_system` returns at the guard: the pending
`NextState` is returned untouched for every enemy set, and the system's only
write access is that `NextState` resource, so nothing else can change. -/
theorem C10_no_player_noop (enemies : List (Vec2 ℚ)) (next : Option GameState) :
    enemy_player_collision_system [] enemies next = next := rfl

/-! ### Claim C2 -/

/-- The pass invariant: every enemy row either still has positive health or
its despawn is already queued. -/
def healthOrQueued (w : CollisionWorld) : Prop :=
  ∀ e ∈ w.enemies, 1 ≤ e.enemy.health ∨ e.id ∈ w.despawnedEnemies

/-- One bullet's scan preserves the invariant: the only health it decrements
to 0 or below belongs to an enemy whose despawn it queues in the same
step. -/
theorem hitScan_healthy (bpos : Vec2 ℚ) (ds : List ℕ) (es : List EnemyRec)
    (h : ∀ e ∈ es, 1 ≤ e.enemy.health ∨ e.id ∈ ds) :
    ∀ e ∈ (hitScan bpos es).enemies,
      1 ≤ e.enemy.health ∨ e.id ∈ ds ++ (hitScan bpos es).kills := by
  induction es with
  | nil => simp [hitScan]
  | cons e rest ih =>
    by_cases hr : inRange bpos e
    · by_cases h2 : e.enemy.health - 1 ≤ 0
      · intro a ha
        simp only [hitScan, if_pos hr, if_pos h2] at ha ⊢
        rcases List.mem_cons.mp ha with rfl | ha
        · right; simp [decHealth]
        · rcases h a (List.mem_cons_of_mem _ ha) with h3 | h3
          · exact Or.inl h3
          · exact Or.inr (List.mem_append_left _ h3)
      · intro a ha
        simp only [hitScan, if_pos hr, if_neg h2] at ha ⊢
        rcases List.mem_cons.mp ha with rfl | ha
        · left
          simp only [decHealth]
          omega
        · rcases h a (List.mem_cons_of_mem _ ha) with h3 | h3
          · exact Or.inl h3
          · exact Or.inr (by simpa using h3)
    · intro a ha
      simp only [hitScan, if_neg hr] at ha ⊢
      rcases List.mem_cons.mp ha with rfl | ha
      · rcases h a (List.mem_cons_self a rest) with h3 | h3
        · exact Or.inl h3
        · exact Or.inr (List.mem_append_left _ h3)
      · exact ih (fun x hx => h x (List.mem_cons_of_mem _ hx)) a ha

/-- `processBullet` preserves the pass invariant. -/
theorem processBullet_healthy (w : CollisionWorld) (b : ℕ × Vec2 ℚ)
    (h : healthOrQueued w) : healthOrQueued (processBullet w b) := by
  intro a ha
  exact hitScan_healthy b.2 w.despawnedEnemies w.enemies h a ha

/-- The whole collision pass preserves the pass invariant. -/
theorem system_healthy (bullets : List (ℕ × Vec2 ℚ)) (w : CollisionWorld)
    (h : healthOrQueued w) :
    healthOrQueued (bullet_enemy_collision_system bullets w) := by
  induction bullets generalizing w with
  | nil => exact h
  | cons b bs ih => exact ih (processBullet w b) (processBullet_healthy w b h)

/-- Claim C2: enemies spawn with health ≥ 1 (Basic 1, Fast 1, Tank 3), and
if every enemy has health ≥ 1 when the bullet-enemy collision pass starts,
then after the pass runs and its queued despawn commands are applied — the
first point any later system can observe — every enemy that still exists has
health ≥ 1: an enemy whose health was driven to 0 or below had its despawn
queued by the very step that decremented it, in the same resolution pass. -/
theorem C2_health_ge_one (bullets : List (ℕ × Vec2 ℚ)) (w : CollisionWorld)
    (h : ∀ e ∈ w.enemies, 1 ≤ e.enemy.health) :
    (∀ roll : ℕ, 1 ≤ enemyHealth (enemyTypeOfRoll roll)) ∧
    ∀ e ∈ (applyDespawns (bullet_enemy_collision_system bullets w)).enemies,
      1 ≤ e.enemy.health := by
  constructor
  · intro roll
    rcases roll with _ | _ | n <;> simp [enemyTypeOfRoll, enemyHealth]
  · have h2 := system_healthy bullets w (fun e he => Or.inl (h e he))
    intro a ha
    have hmem := List.mem_filter.mp ha
    rcases h2 a hmem.1 with h3 | h3
    · exact h3
    · exact absurd h3 (by simpa using hmem.2)

/-- The C2 witness world: a Tank with health 3 and a Basic with health 1,
each under a bullet. -/
def c2World : CollisionWorld :=
  ⟨[⟨0, ⟨0, 0⟩, ⟨EnemyType.Tank, 3⟩⟩, ⟨1, ⟨50, 0⟩, ⟨EnemyType.Basic, 1⟩⟩], 0, [], [], []⟩

/-- The C2 witness bullet query: one bullet over each enemy. -/
def c2Bullets : List (ℕ × Vec2 ℚ) :=
  [(100, ⟨0, 0⟩), (101, ⟨50, 0⟩)]

/-- Witness for claim C2 at a concrete pass: the Tank drops to health 2 and
stays, the Basic is destroyed and removed; every surviving enemy has health
≥ 1. -/
theorem C2_witness :
    (∀ roll : ℕ, 1 ≤ enemyHealth (enemyTypeOfRoll roll)) ∧
    ∀ e ∈ (applyDespawns (bullet_enemy_collision_system c2Bullets c2World)).enemies,
      1 ≤ e.enemy.health :=
  C2_health_ge_one c2Bullets c2World
    (by norm_num [c2World, List.forall_mem_cons])

/-! ### Claim C4 -/

/-- The C4 counterexample position: the bullet sits 4999 units from the
world origin when its movement frame begins. -/
def c4Pos : Vec2 ℚ := ⟨4999, 0⟩

/-- The C4 counterexample bullet: flying along +x at the source's constant
speed 600. -/
def c4Bullet : Bullet ℚ := ⟨⟨1, 0⟩, 600⟩

/-- Counterexample to claim C4 as stated: in a 10 ms frame the bullet moves
6 units (squared travel 36) from where it was fired, yet it is despawned,
because its new position is 5005 > 5000 units from the world origin.  A
bullet is therefore not guaranteed 5000 units of travel from its firing
point. -/
theorem C4_despawn_before_travel_cex :
    (bullet_movement_system (1 / 100) [(0, c4Pos, c4Bullet)]).2 = [0] ∧
    distSq (bulletStep (1 / 100) c4Pos c4Bullet) c4Pos = 36 ∧
    (36 : ℚ) < 5000 ^ 2 := by
  norm_num [bullet_movement_system, bulletExpired, bulletStep, distSq, c4Pos, c4Bullet]

/-- Claim C4, amended: after the per-frame move
`translation += direction * speed * delta`, a bullet is despawned exactly
when its new position lies farther than 5000 units from the world origin —
so it is despawned on the first frame that crosses that origin-centred
threshold.  The test depends only on the new position, never on the distance
travelled since creation: two bullets arriving at the same point share the
same fate regardless of where they were fired. -/
theorem C4_despawn_iff_origin_distance (dt : ℚ) (pos : Vec2 ℚ) (b : Bullet ℚ)
    (dt2 : ℚ) (pos2 : Vec2 ℚ) (b2 : Bullet ℚ) :
    (bulletExpired dt pos b = true ↔
      5000 ^ 2 < (bulletStep dt pos b).x ^ 2 + (bulletStep dt pos b).y ^ 2) ∧
    (bulletStep dt pos b =
      ⟨pos.x + b.direction.x * b.speed * dt, pos.y + b.direction.y * b.speed * dt⟩) ∧
    (bulletStep dt pos b = bulletStep dt2 pos2 b2 →
      bulletExpired dt pos b = bulletExpired dt2 pos2 b2) := by
  refine ⟨by simp [bulletExpired], rfl, ?_⟩
  intro h
  simp [bulletExpired, h]

/-! ### Claim C5 -/

/-- Counterexample to claim C5 as stated: when the cursor's world position
equals the player's position, `shoot_bullet` normalizes the zero vector.  In
the real-valued model `0 / 0 = 0`, so the stored direction is the zero
vector, of length 0, not a unit vector (glam's `normalize` yields a
non-finite NaN vector there — in either semantics the length is not 1). -/
theorem C5_zero_cursor_cex :
    length2 (shoot_bullet ⟨0, 0⟩ ⟨0, 0⟩).direction = 0 ∧ (0 : ℝ) ≠ 1 := by
  constructor
  · norm_num [shoot_bullet, normalize2, length2]
  · norm_num

/-- Claim C5, amended: for every cursor world position other than the
player's own position, the bullet created by the shoot action stores a
direction of length exactly 1 and the constant speed 600; and the bullet
movement system never modifies any bullet's `Bullet` component (direction
and speed are fixed at creation).  When the cursor equals the player's
position the normalized zero vector is not a unit vector. -/
theorem C5_unit_direction (p c : Vec2 ℝ) (h : c ≠ p) :
    length2 (shoot_bullet p c).direction = 1 ∧
    (shoot_bullet p c).speed = 600 ∧
    ∀ (dt : ℚ) (bs : List (ℕ × Vec2 ℚ × Bullet ℚ)),
      (bullet_movement_system dt bs).1.map (fun e => (e.1, e.2.2)) =
        bs.map (fun e => (e.1, e.2.2)) := by
  refine ⟨?_, rfl, ?_⟩
  · have hv : c.x - p.x ≠ 0 ∨ c.y - p.y ≠ 0 := by
      by_contra hc
      push_neg at hc
      apply h
      obtain ⟨hx, hy⟩ := hc
      have hx2 : c.x = p.x := by linarith
      have hy2 : c.y = p.y := by linarith
      cases c; cases p; simp_all
    have hs : 0 < (c.x - p.x) ^ 2 + (c.y - p.y) ^ 2 := by
      rcases hv with hv | hv
      · have h1 : (c.x - p.x) ^ 2 ≠ 0 := pow_ne_zero 2 hv
        have h2 : 0 ≤ (c.x - p.x) ^ 2 := sq_nonneg _
        have h3 : 0 ≤ (c.y - p.y) ^ 2 := sq_nonneg _
        rcases lt_of_le_of_ne h2 (Ne.symm h1) with h4
        linarith
      · have h1 : (c.y - p.y) ^ 2 ≠ 0 := pow_ne_zero 2 hv
        have h2 : 0 ≤ (c.y - p.y) ^ 2 := sq_nonneg _
        have h3 : 0 ≤ (c.x - p.x) ^ 2 := sq_nonneg _
        rcases lt_of_le_of_ne h2 (Ne.symm h1) with h4
        linarith
    have key : ((c.x - p.x) / Real.sqrt ((c.x - p.x) ^ 2 + (c.y - p.y) ^ 2)) ^ 2 +
        ((c.y - p.y) / Real.sqrt ((c.x - p.x) ^ 2 + (c.y - p.y) ^ 2)) ^ 2 = 1 := by
      rw [div_pow, div_pow, div_add_div_same, Real.sq_sqrt hs.le]
      exact div_self (ne_of_gt hs)
    show Real.sqrt
        (((c.x - p.x) / Real.sqrt ((c.x - p.x) ^ 2 + (c.y - p.y) ^ 2)) ^ 2 +
          ((c.y - p.y) / Real.sqrt ((c.x - p.x) ^ 2 + (c.y - p.y) ^ 2)) ^ 2) = 1
    rw [key, Real.sqrt_one]
  · intro dt bs
    simp [bullet_movement_system, List.map_map, Function.comp]

/-- Witness for claim C5 (amended) at a concrete shot: player at the
origin, cursor at `(1, 0)`. -/
theorem C5_witness :
    length2 (shoot_bullet ⟨0, 0⟩ ⟨1, 0⟩).direction = 1 ∧
    (shoot_bullet ⟨0, 0⟩ ⟨1, 0⟩).speed = 600 ∧
    ∀ (dt : ℚ) (bs : List (ℕ × Vec2 ℚ × Bullet ℚ)),
      (bullet_movement_system dt bs).1.map (fun e => (e.1, e.2.2)) =
        bs.map (fun e => (e.1, e.2.2)) :=
  C5_unit_direction ⟨0, 0⟩ ⟨1, 0⟩ (by simp)

/-! ### Claims C7 and C8 -/

/-- Claim C7: `cleanup_ingame_entities`, the `OnEnter(GameOver)` cleanup
pass, despawns every entity tagged `InGameEntity`.  Every player, enemy and
bullet is spawned with that tag, so in any world where the round-scoped
entities carry the tag, the number of round-scoped entities remaining after
the cleanup completes is exactly 0. -/
theorem C7_cleanup_leaves_no_round_scoped (w : List WEntity)
    (h : ∀ e ∈ w, isRoundScoped e = true → e.inGame = true) :
    ((cleanup_ingame_entities w).filter isRoundScoped).length = 0 := by
  rw [List.length_eq_zero, List.filter_eq_nil_iff]
  intro a ha
  rw [cleanup_ingame_entities, List.mem_filter] at ha
  intro hsc
  have h2 := h a ha.1 hsc
  rw [h2] at ha
  simpa using ha.2

/-- The C7 witness world: a player, an enemy and a bullet (all tagged
`InGameEntity` as spawned by the source) plus the untagged score text. -/
def c7World : List WEntity :=
  [⟨EntityClass.player, true, ⟨0, 0⟩⟩, ⟨EntityClass.enemy, true, ⟨3, 4⟩⟩,
   ⟨EntityClass.bullet, true, ⟨1, 2⟩⟩, ⟨EntityClass.scoreText, false, ⟨0, 0⟩⟩]

/-- Witness for claim C7 at a concrete world. -/
theorem C7_witness :
    ((cleanup_ingame_entities c7World).filter isRoundScoped).length = 0 :=
  C7_cleanup_leaves_no_round_scoped c7World
    (by norm_num [c7World, List.forall_mem_cons, isRoundScoped])

/-- Claim C8: `setup_new_game`, the `OnEnter(Playing)` restart effect, sets
the score to exactly 0, removes every game-over message entity, and — since
no player exists while in `GameOver` (cleanup removed it) — leaves exactly
one player entity, spawned at the origin with the `InGameEntity` tag. -/
theorem C8_restart_resets (score : ℕ) (w : List WEntity)
    (h : ∀ a ∈ w, a.cls ≠ EntityClass.player) :
    (setup_new_game score w).1 = 0 ∧
    (∀ e ∈ (setup_new_game score w).2, e.cls ≠ EntityClass.gameOverText) ∧
    ((setup_new_game score w).2.filter isPlayerEnt).length = 1 ∧
    ∀ e ∈ (setup_new_game score w).2, isPlayerEnt e = true →
      e.pos = ⟨0, 0⟩ ∧ e.inGame = true := by
  have hfil : (setup_new_game score w).2 =
      w.filter (fun e => !(decide (e.cls = EntityClass.gameOverText)))
        ++ [⟨EntityClass.player, true, ⟨0, 0⟩⟩] := rfl
  refine ⟨rfl, ?_, ?_, ?_⟩
  · intro e he
    rw [hfil] at he
    rcases List.mem_append.mp he with he | he
    · have h2 := (List.mem_filter.mp he).2
      simpa using h2
    · rcases List.mem_singleton.mp he with rfl
      simp
  · rw [hfil, List.filter_append]
    have h1 : (w.filter (fun e => !(decide (e.cls = EntityClass.gameOverText)))).filter
        isPlayerEnt = [] := by
      rw [List.filter_eq_nil_iff]
      intro a ha
      have h2 := h a (List.mem_filter.mp ha).1
      simp [isPlayerEnt, h2]
    rw [h1]
    rfl
  · intro e he hp
    rw [hfil] at he
    rcases List.mem_append.mp he with he | he
    · have h2 := h e (List.mem_filter.mp he).1
      rw [isPlayerEnt] at hp
      exact absurd (of_decide_eq_true hp) h2
    · rcases List.mem_singleton.mp he with rfl
      exact ⟨rfl, rfl⟩

/-- The C8 witness world: what remains during `GameOver` — the game-over
message and the score text, no player. -/
def c8World : List WEntity :=
  [⟨EntityClass.gameOverText, false, ⟨0, 0⟩⟩, ⟨EntityClass.scoreText, false, ⟨0, 0⟩⟩]

/-- Witness for claim C8 at a concrete restart from score 42. -/
theorem C8_witness :
    (setup_new_game 42 c8World).1 = 0 ∧
    (∀ e ∈ (setup_new_game 42 c8World).2, e.cls ≠ EntityClass.gameOverText) ∧
    ((setup_new_game 42 c8World).2.filter isPlayerEnt).length = 1 ∧
    ∀ e ∈ (setup_new_game 42 c8World).2, isPlayerEnt e = true →
      e.pos = ⟨0, 0⟩ ∧ e.inGame = true :=
  C8_restart_resets 42 c8World
    (by norm_num [c8World, List.forall_mem_cons]; decide)

/-! ### Claim C9 -/

/-- Claim C9: in a spawn tick whose accumulated time reaches the 1-second
repeating period, with exactly one live player, exactly one enemy is
created, at `player + (cos θ, sin θ) · r` for the drawn angle `θ` and
distance `r` (drawn from `[0, 2π)` and `[300, 500)` by `gen_range`), with
its kind determined by the three-way roll — roll 0 gives Basic, roll 1 Fast,
roll 2 Tank, one kind per equally likely outcome — and kind-specific initial
health Basic 1, Fast 1, Tank 3.  With no live player the timer still ticks
exactly the same but no enemy is created. -/
theorem C9_spawn_one_enemy (elapsed dt : ℚ) (p : Vec2 ℝ) (rng : SpawnRng)
    (h : 1 ≤ elapsed + dt) :
    (spawn_enemies elapsed dt [p] rng).2 =
      some ⟨⟨enemyTypeOfRoll rng.typeRoll, enemyHealth (enemyTypeOfRoll rng.typeRoll)⟩,
        p.x + Real.cos rng.angle * rng.dist,
        p.y + Real.sin rng.angle * rng.dist, true⟩ ∧
    (spawn_enemies elapsed dt [p] rng).1 = (tickTimer elapsed dt).1 ∧
    (∀ rng2 : SpawnRng, spawn_enemies elapsed dt [] rng2 = ((tickTimer elapsed dt).1, none)) ∧
    enemyTypeOfRoll 0 = EnemyType.Basic ∧ enemyTypeOfRoll 1 = EnemyType.Fast ∧
    enemyTypeOfRoll 2 = EnemyType.Tank ∧
    enemyHealth EnemyType.Basic = 1 ∧ enemyHealth EnemyType.Fast = 1 ∧
    enemyHealth EnemyType.Tank = 3 := by
  have ht : tickTimer elapsed dt = (elapsed + dt - ⌊elapsed + dt⌋, true) := by
    rw [tickTimer, if_pos h]
  refine ⟨?_, ?_, ?_, rfl, rfl, rfl, rfl, rfl, rfl⟩
  · simp [spawn_enemies, ht]
  · simp [spawn_enemies, ht]
  · intro rng2
    rcases htt : tickTimer elapsed dt with ⟨e2, b⟩
    cases b <;> simp [spawn_enemies, htt]

/-- Witness for claim C9: elapsed 0, delta 1 s, player at the origin, draws
θ = 0, r = 300, roll = 0: one Basic enemy with health 1 spawns at
`(0 + cos 0 · 300, 0 + sin 0 · 300)`, and without a player the timer
still advances identically. -/
theorem C9_witness :
    (spawn_enemies 0 1 [⟨0, 0⟩] ⟨0, 300, 0⟩).2 =
      some ⟨⟨EnemyType.Basic, 1⟩, 0 + Real.cos 0 * 300, 0 + Real.sin 0 * 300, true⟩ ∧
    (spawn_enemies 0 1 [⟨0, 0⟩] ⟨0, 300, 0⟩).1 = (tickTimer 0 1).1 ∧
    (∀ rng2 : SpawnRng, spawn_enemies 0 1 [] rng2 = ((tickTimer 0 1).1, none)) ∧
    enemyTypeOfRoll 0 = EnemyType.Basic ∧ enemyTypeOfRoll 1 = EnemyType.Fast ∧
    enemyTypeOfRoll 2 = EnemyType.Tank ∧
    enemyHealth EnemyType.Basic = 1 ∧ enemyHealth EnemyType.Fast = 1 ∧
    enemyHealth EnemyType.Tank = 3 :=
  C9_spawn_one_enemy 0 1 ⟨0, 0⟩ ⟨0, 300, 0⟩ (by norm_num)

end VampClone
